import Mathlib

/-!
Shallow embedding of the relay-pool/session manager in
src/utils/nostr/nostr-manager.ts (class NostrManager), together with the
wrapper placed around event-delivery callbacks and the fetch aggregator.

Conventions of the embedding:
* Time is an explicit natural-number parameter now standing for Date.now().
* The JS Map String -> Bool (authenticatedRelays) is an association list
  with Map.set / Map.get semantics (mapSet / mapGet below).
* Network I/O (pool.subscribeMany, pool.publish, connect, disconnect, the
  NIP-42 handshake round-trip) is recorded as a trace of Effect values;
  the handshake outcome is an explicit parameter: Except Unit Bool, where
  an error value stands for a thrown exception inside the try block and
  an ok value for a completed handshake returning that boolean.
* Subscription handles are identified by a counter nextSubId; the
  activeSubs array of a session holds the ids of the handles pushed onto
  it, and closing erases the first occurrence, exactly as
  indexOf / splice do in the source.
-/

namespace Shopstr

/-- Events as delivered by relays (nostr-tools shape): id, pubkey,
created_at, kind, tags, content, sig. Cryptographic signature checking,
performed by the external verifyEvent, is abstracted as a Boolean
predicate parameter wherever the source calls it. -/
structure NostrEvent where
  id : String
  pubkey : String
  created_at : Nat
  kind : Nat
  tags : List (List String)
  content : String
  sig : String
deriving DecidableEq, Repr

/-- One relay session (type NostrRelay in the source): URL, the ids of the
active subscription handles pushed onto it, the sleeping flag, the
last-activity timestamp and the authenticated flag. -/
structure NostrRelay where
  url : String
  activeSubs : List Nat
  sleeping : Bool
  lastActive : Nat
  authenticated : Bool
deriving DecidableEq, Repr

/-- Manager configuration (type NostrManagerParams in the source). -/
structure NostrManagerParams where
  connectionTimeout : Option Nat
  keepAliveTime : Nat
  gcInterval : Nat
  readable : Bool
  writable : Bool
  autoAuth : Bool
deriving DecidableEq, Repr

/-- The manager state: configuration, the relay registry (an array in the
source, in insertion order), the authentication record (a JS Map), and
the counter supplying fresh subscription-handle identities. -/
structure NostrManager where
  params : NostrManagerParams
  relays : List NostrRelay
  authenticatedRelays : List (String × Bool)
  nextSubId : Nat
deriving DecidableEq, Repr

/-- Network side effects recorded by the embedding. -/
inductive Effect where
  | connect (url : String)
  | disconnect (url : String)
  | subscribeMany (urls : List String)
  | poolPublish (urls : List String)
  | handshake (url : String)
deriving DecidableEq, Repr

/-- JS Map.set on an association list: overwrite in place if the key is
present, append otherwise. -/
def mapSet (xs : List (String × Bool)) (k : String) (v : Bool) :
    List (String × Bool) :=
  if xs.any (fun p => p.1 = k) then
    xs.map (fun p => if p.1 = k then (k, v) else p)
  else xs ++ [(k, v)]

/-- JS Map.get on an association list. -/
def mapGet (xs : List (String × Bool)) (k : String) : Option Bool :=
  (xs.find? (fun p => p.1 = k)).map (fun p => p.2)

/-- NostrManager.addRelay (source lines 285-308): no-op when a session for
the URL already exists; otherwise pushes a fresh session initialized
sleeping, last active now, unauthenticated, with no active
subscriptions. -/
def NostrManager.addRelay (m : NostrManager) (url : String) (now : Nat) :
    NostrManager :=
  if m.relays.any (fun r => r.url = url) then m
  else
    { m with relays := m.relays ++
        [{ url := url, activeSubs := [], sleeping := true,
           lastActive := now, authenticated := false }] }

/-- NostrManager.addRelays (source lines 310-319). -/
def NostrManager.addRelays (m : NostrManager) (urls : List String)
    (now : Nat) : NostrManager :=
  urls.foldl (fun acc u => acc.addRelay u now) m

/-- The per-session body of keepAlive (source lines 92-102): a targeted
session is woken (sleeping cleared) and stamped with now; others are
untouched. -/
def wakeRelay (targets : List String) (now : Nat) (r : NostrRelay) :
    NostrRelay :=
  if r.url ∈ targets then { r with sleeping := false, lastActive := now }
  else r

/-- NostrManager.keepAlive (source lines 91-103) restricted to the
targeted sessions, identified by URL: wake each sleeping one (connect,
clear sleeping) and stamp lastActive with now. Returns the connect
effects for the sessions that were asleep. -/
def NostrManager.keepAlive (m : NostrManager) (targets : List String)
    (now : Nat) : NostrManager × List Effect :=
  ({ m with relays := m.relays.map (wakeRelay targets now) },
   ((m.relays.filter (fun r => decide (r.url ∈ targets) && r.sleeping)).map
      (fun r => Effect.connect r.url)))

/-- The per-session body of one GC sweep (source lines 107-120): an awake
session with no active subscriptions whose idle time exceeds
keepAliveTime is marked sleeping; every other session is untouched. -/
def gcRelay (keepAliveTime now : Nat) (r : NostrRelay) : NostrRelay :=
  if !r.sleeping && r.activeSubs.isEmpty &&
      decide (now - r.lastActive > keepAliveTime) then
    { r with sleeping := true }
  else r

/-- NostrManager.gc, one sweep plus rescheduling (source lines 105-127):
applies gcRelay to every session, emits a disconnect effect for each
session it puts to sleep, and returns the delay passed to setTimeout for
the next sweep — which the source sets to params.keepAliveTime. -/
def NostrManager.gcSweep (m : NostrManager) (now : Nat) :
    NostrManager × List Effect × Nat :=
  ({ m with relays :=
      m.relays.map (gcRelay m.params.keepAliveTime now) },
   ((m.relays.filter (fun r =>
        !r.sleeping && r.activeSubs.isEmpty &&
          decide (now - r.lastActive > m.params.keepAliveTime))).map
      (fun r => Effect.disconnect r.url)),
   m.params.keepAliveTime)

/-- The event-delivery wrapper installed by NostrManager.subscribe
(source lines 168-175): the caller's onevent runs only when verifyEvent
accepts the event; a rejected event produces no call and no error. -/
def wrapOnevent {α : Type} (verify : NostrEvent → Bool)
    (onevent : NostrEvent → α) : NostrEvent → Option α :=
  fun event => if verify event then some (onevent event) else none

/-- The sequence of events actually handed to the caller's callback when
the underlying pool delivers the given events in order. -/
def deliveredToCaller (verify : NostrEvent → Bool)
    (events : List NostrEvent) : List NostrEvent :=
  events.filterMap (fun e => wrapOnevent verify (fun x => x) e)

/-- The session-ensuring prelude shared by subscribe (lines 176-180) and
publish (lines 251-255): when an explicit URL list is given, each URL is
added to the registry; an absent list adds nothing. -/
def NostrManager.ensureRelays (m : NostrManager)
    (relayUrls : Option (List String)) (now : Nat) : NostrManager :=
  match relayUrls with
  | some urls => m.addRelays urls now
  | none => m

/-- The target-selection expression shared by subscribe (lines 182-184)
and publish (lines 257-259): an explicitly given list selects the known
sessions whose URL it contains — so an empty list selects nothing — and
an absent list selects every known session. -/
def NostrManager.targetsOf (m : NostrManager)
    (relayUrls : Option (List String)) : List String :=
  match relayUrls with
  | some urls => (m.relays.filter (fun r => decide (r.url ∈ urls))).map
      (fun r => r.url)
  | none => m.relays.map (fun r => r.url)

/-- The per-session effect of registering a new subscription handle
(source lines 200-202): push its id onto every targeted session. -/
def pushSubRelay (sid : Nat) (targets : List String) (r : NostrRelay) :
    NostrRelay :=
  if r.url ∈ targets then { r with activeSubs := r.activeSubs ++ [sid] }
  else r

/-- NostrManager.subscribe (source lines 161-205) minus the callback
plumbing modelled by wrapOnevent: capability gate, ensure sessions for
explicitly given URLs, compute the targeted sessions, open the pool
subscription, push the handle id onto every targeted session and keep
them alive. Returns the new state, the handle id, the targeted URLs
(the sessions the handle spans, captured by its close), and the effect
trace. -/
def NostrManager.subscribe (m : NostrManager)
    (relayUrls : Option (List String)) (now : Nat) :
    Except String (NostrManager × Nat × List String × List Effect) :=
  if !m.params.readable then .error "not readable"
  else
    let m1 := m.ensureRelays relayUrls now
    let targets := m1.targetsOf relayUrls
    let sid := m1.nextSubId
    let m2 : NostrManager :=
      { m1 with
        relays := m1.relays.map (pushSubRelay sid targets),
        nextSubId := m1.nextSubId + 1 }
    let ka := m2.keepAlive targets now
    .ok (ka.1, sid, targets, Effect.subscribeMany targets :: ka.2)

/-- The per-session effect of closing a subscription handle (source
lines 193-197): remove the handle id from a targeted session's
activeSubs via indexOf / splice, i.e. erase the first occurrence when
present. -/
def closeSubRelay (sid : Nat) (targets : List String) (r : NostrRelay) :
    NostrRelay :=
  if r.url ∈ targets then { r with activeSubs := r.activeSubs.erase sid }
  else r

/-- The close of a subscription handle (source lines 191-198): for every
session the handle spans, remove the handle id from its activeSubs. -/
def NostrManager.closeSub (m : NostrManager) (sid : Nat)
    (targets : List String) : NostrManager :=
  { m with relays := m.relays.map (closeSubRelay sid targets) }

/-- The per-session flag update performed after a completed handshake
(source lines 139-142 and 336-339): set the authenticated flag on the
session matching the URL; others are untouched. -/
def setAuthRelay (url : String) (b : Bool) (r : NostrRelay) : NostrRelay :=
  if r.url = url then { r with authenticated := b } else r

/-- NostrManager.authenticateToRelay (source lines 129-155): ensure the
session exists, run the handshake (the external helper, abstracted as
the outcome parameter; an error value is a throw caught by the
surrounding try), and on a completed handshake store the boolean in the
authentication record and the session's authenticated flag. Returns the
boolean result — false on a caught exception — and the new state. -/
def NostrManager.authenticateToRelay (m : NostrManager) (url : String)
    (now : Nat) (outcome : Except Unit Bool) : Bool × NostrManager :=
  let m1 := if m.relays.any (fun r => r.url = url) then m
    else m.addRelay url now
  match outcome with
  | .error _ => (false, m1)
  | .ok result =>
    (result,
     { m1 with
       authenticatedRelays := mapSet m1.authenticatedRelays url result,
       relays := m1.relays.map (setAuthRelay url result) })

/-- NostrManager.isRelayAuthenticated (source lines 157-159): a pure
lookup in the authentication record, true exactly when the record holds
true for the URL. -/
def NostrManager.isRelayAuthenticated (m : NostrManager) (url : String) :
    Bool :=
  decide (mapGet m.authenticatedRelays url = some true)

/-- One iteration of the auto-authentication loop inside publish (source
lines 263-274): when a session for the URL exists and its authenticated
flag is not set at this point of the loop, run the handshake for it via
authenticateToRelay (recording a handshake effect); otherwise skip it. -/
def publishAuthStep (handshake : String → Except Unit Bool) (now : Nat)
    (acc : NostrManager × List Effect) (u : String) :
    NostrManager × List Effect :=
  match acc.1.relays.find? (fun r => r.url = u) with
  | some r =>
    if !r.authenticated then
      ((acc.1.authenticateToRelay u now (handshake u)).2,
       acc.2 ++ [Effect.handshake u])
    else acc
  | none => acc

/-- NostrManager.publish (source lines 245-283): capability gate, ensure
sessions for explicitly given URLs, compute targeted sessions exactly as
subscribe does, keep them alive, then — when autoAuth is on and a signer
was supplied — walk the targeted sessions in order and run the handshake
(via authenticateToRelay, outcome drawn per URL from the handshake
oracle) for each one whose authenticated flag is not set at that moment,
and finally broadcast to every targeted session regardless of the
authentication outcomes. -/
def NostrManager.publish (m : NostrManager)
    (relayUrls : Option (List String)) (signerGiven : Bool)
    (handshake : String → Except Unit Bool) (now : Nat) :
    Except String (NostrManager × List Effect) :=
  if !m.params.writable then .error "not writable"
  else
    let m1 := m.ensureRelays relayUrls now
    let targets := m1.targetsOf relayUrls
    let ka := m1.keepAlive targets now
    let auth := if m.params.autoAuth && signerGiven then
        targets.foldl (publishAuthStep handshake now) (ka.1, [])
      else (ka.1, [])
    .ok (auth.1, ka.2 ++ auth.2 ++ [Effect.poolPublish targets])

/-- NostrManager.authenticateToRelays (source lines 321-344): when the
URL list is absent or empty, fall back to every known session's URL;
run the batch handshake helper (modelled from the spec: it returns a
URL-to-outcome mapping over exactly the targeted URLs, drawn here from
the outcomes oracle), then store each outcome in the authentication
record and in the matching session's authenticated flag when a session
exists. Returns the mapping and the new state; the mapping's keys are
the targeted URLs. -/
def NostrManager.authenticateToRelays (m : NostrManager)
    (relayUrls : Option (List String)) (outcomes : String → Bool) :
    List (String × Bool) × NostrManager :=
  let urls : List String := match relayUrls with
    | none => m.relays.map (fun r => r.url)
    | some us => if us.isEmpty then m.relays.map (fun r => r.url) else us
  let results := urls.map (fun u => (u, outcomes u))
  (results,
   results.foldl (fun acc p =>
     { acc with
       authenticatedRelays := mapSet acc.authenticatedRelays p.1 p.2,
       relays := acc.relays.map (setAuthRelay p.1 p.2) }) m)

/-- NostrManager.fetch (source lines 207-242) as a whole-run function.
Modelled from the spec: newPromiseWithTimeout (src/utils/timeout.ts, not
under src/) runs the executor with a resolve and a reject continuation
and rejects with a timeout error when resolve has not been called before
the deadline; it gives the executor no cancellation or cleanup hook.
The run is parametrized by the scenario: some delivered means the EOSE
signal arrived before the deadline after the pool delivered the listed
events in order (fetch then closes the subscription and resolves with
the accumulated events that passed verification), while none means EOSE
never arrived before the deadline, so the helper rejects with the
timeout error and no code path closes the subscription. -/
def NostrManager.fetchRun (m : NostrManager)
    (relayUrls : Option (List String)) (verify : NostrEvent → Bool)
    (scenario : Option (List NostrEvent)) (now : Nat) :
    Except String (List NostrEvent) × NostrManager :=
  match m.subscribe relayUrls now with
  | .error e => (.error e, m)
  | .ok (m1, sid, targets, _) =>
    match scenario with
    | some delivered =>
      (.ok (deliveredToCaller verify delivered), m1.closeSub sid targets)
    | none => (.error "timeout", m1)

/-- The constructor (source lines 54-77): apply the defaulted
configuration, add the initial relays, and run the first GC sweep
(whose rescheduling delay gcSweep reports). -/
def NostrManager.make (initRelays : List String)
    (params : NostrManagerParams) (now : Nat) : NostrManager :=
  let m0 : NostrManager :=
    { params := params, relays := [], authenticatedRelays := [],
      nextSubId := 0 }
  ((m0.addRelays initRelays now).gcSweep now).1

/-- The defaults applied when no configuration is supplied
(source lines 55-62). -/
def defaultParams : NostrManagerParams :=
  { connectionTimeout := none, keepAliveTime := 1000 * 60 * 5,
    gcInterval := 1000 * 60 * 5, readable := true, writable := true,
    autoAuth := false }

/-! Theorems about the claims, preceded by shared helper lemmas. -/

/-- Waking with an empty target list changes nothing. -/
theorem wakeRelay_nil (t : Nat) (r : NostrRelay) : wakeRelay [] t r = r := by
  simp [wakeRelay]

/-- Pushing a handle with an empty target list changes nothing. -/
theorem pushSubRelay_nil (sid : Nat) (r : NostrRelay) :
    pushSubRelay sid [] r = r := by
  simp [pushSubRelay]

/-- Mapping a pointwise-identity function over a list changes nothing. -/
theorem map_id_of {α : Type} {f : α → α} (h : ∀ a, f a = a) :
    ∀ l : List α, l.map f = l := by
  intro l
  induction l with
  | nil => rfl
  | cons a l ih => simp [h, ih]

/-- A manager with one relay, used as the concrete fetch scenario. -/
def mC1 : NostrManager := NostrManager.make ["wss://relay.example"] defaultParams 0

/-- C1: the claim says a fetch whose EOSE never arrives before the timeout
rejects with a timeout error and still closes its subscription, leaving no
subscription in any targeted session's active set. On the concrete run
below the rejection happens, but the subscription (handle id 0) is still
in the targeted session's active set afterward: the source closes the
subscription only inside the oneose callback, and the timeout helper
gives the executor no cleanup hook, so the timeout path never closes it. -/
theorem claim_C1 :
    (mC1.fetchRun none (fun _ => true) none 5).1 = Except.error "timeout" ∧
    ((mC1.fetchRun none (fun _ => true) none 5).2.relays.map
        (fun r => r.activeSubs)) = [[0]] :=
  ⟨rfl, rfl⟩

/-- Configuration distinguishing the two timing parameters. -/
def paramsC2 : NostrManagerParams :=
  { connectionTimeout := none, keepAliveTime := 1000, gcInterval := 2000,
    readable := true, writable := true, autoAuth := false }

/-- C2: the claim says every sweep schedules the next sweep gcInterval
later. In the source the rescheduling delay passed to setTimeout is
params.keepAliveTime (line 126), not params.gcInterval: for every
manager the reported delay equals keepAliveTime, and on a configuration
with keepAliveTime 1000 and gcInterval 2000 the scheduled delay is 1000,
not the configured gcInterval. -/
theorem claim_C2 :
    (∀ (m : NostrManager) (now : Nat),
        (m.gcSweep now).2.2 = m.params.keepAliveTime) ∧
    ((NostrManager.make [] paramsC2 0).gcSweep 0).2.2 = 1000 ∧
    ((NostrManager.make [] paramsC2 0).gcSweep 0).2.2 ≠ paramsC2.gcInterval :=
  ⟨fun _ _ => rfl, rfl, by decide⟩

/-- C4: the wrapper installed by subscribe invokes the caller's callback
only when the event verifies — a call is produced only if verify accepts
the event, an event failing verification yields no call and no error,
and over any delivery sequence the caller sees exactly the verified
events. -/
theorem claim_C4 {α : Type} (verify : NostrEvent → Bool)
    (onevent : NostrEvent → α) (e : NostrEvent) :
    (wrapOnevent verify onevent e ≠ none → verify e = true) ∧
    (verify e = false → wrapOnevent verify onevent e = none) ∧
    (∀ events : List NostrEvent,
      deliveredToCaller verify events = events.filter (fun x => verify x)) := by
  refine ⟨?_, ?_, ?_⟩
  · intro h
    cases hv : verify e with
    | true => rfl
    | false => exact absurd (by simp [wrapOnevent, hv]) h
  · intro hv
    simp [wrapOnevent, hv]
  · intro events
    induction events with
    | nil => rfl
    | cons a l ih =>
      cases hv : verify a <;>
        simp [deliveredToCaller, wrapOnevent, hv, List.filter_cons] at ih ⊢ <;>
        exact ih

/-- A concrete event whose signature does not verify under the concrete
verifier used in the witness. -/
def eC4 : NostrEvent :=
  { id := "e1", pubkey := "p", created_at := 0, kind := 0, tags := [],
    content := "", sig := "bad" }

/-- Witness for C4 at a concrete verifier, callback and event. -/
theorem claim_C4_witness :
    wrapOnevent (fun e => decide (e.kind = 1)) (fun x => x) eC4 = none :=
  (claim_C4 (fun e => decide (e.kind = 1)) (fun x => x) eC4).2.1 (by decide)

/-- C5: a manager configured readable = false rejects every subscribe
call with the capability error, and one configured writable = false
rejects every publish call with the capability error; in both cases the
rejection is the very first step, so no state change and no network
effect escapes (the embedding returns only the error). -/
theorem claim_C5 (m₁ m₂ : NostrManager) (u₁ u₂ : Option (List String))
    (sg : Bool) (hs : String → Except Unit Bool) (t₁ t₂ : Nat)
    (h₁ : m₁.params.readable = false) (h₂ : m₂.params.writable = false) :
    m₁.subscribe u₁ t₁ = Except.error "not readable" ∧
    m₂.publish u₂ sg hs t₂ = Except.error "not writable" := by
  constructor
  · simp [NostrManager.subscribe, h₁]
  · simp [NostrManager.publish, h₂]

/-- A configuration with both capability gates off. -/
def paramsC5 : NostrManagerParams :=
  { connectionTimeout := none, keepAliveTime := 1, gcInterval := 1,
    readable := false, writable := false, autoAuth := false }

/-- A manager configured neither readable nor writable. -/
def mC5 : NostrManager := NostrManager.make [] paramsC5 0

/-- Witness for C5 on a concrete read-and-write-disabled manager. -/
theorem claim_C5_witness :
    mC5.subscribe none 0 = Except.error "not readable" ∧
    mC5.publish none true (fun _ => Except.ok true) 0 =
      Except.error "not writable" :=
  claim_C5 mC5 mC5 none none true (fun _ => Except.ok true) 0 0 rfl rfl

/-- C10: an explicit empty URL list is asymmetric across the operations —
subscribe with an empty list targets no session (the state gains no
active subscription, the handle spans no URL, and the pool subscription
covers no relay), publish with an empty list broadcasts to no relay,
while authenticateToRelays with an empty list falls back to every known
session's URL. -/
theorem claim_C10 (m : NostrManager) (t : Nat) (sg : Bool)
    (hs : String → Except Unit Bool) (outcomes : String → Bool)
    (hr : m.params.readable = true) (hw : m.params.writable = true) :
    m.subscribe (some []) t =
      Except.ok ({ m with nextSubId := m.nextSubId + 1 }, m.nextSubId,
        ([] : List String), [Effect.subscribeMany []]) ∧
    m.publish (some []) sg hs t = Except.ok (m, [Effect.poolPublish []]) ∧
    (m.authenticateToRelays (some []) outcomes).1 =
      m.relays.map (fun r => (r.url, outcomes r.url)) := by
  obtain ⟨p, rl, ar, ns⟩ := m
  refine ⟨?_, ?_, ?_⟩ <;>
    simp [NostrManager.subscribe, NostrManager.publish,
      NostrManager.authenticateToRelays, NostrManager.ensureRelays,
      NostrManager.addRelays, NostrManager.targetsOf, NostrManager.keepAlive,
      Function.comp_def, hr, hw,
      map_id_of (fun r => wakeRelay_nil t r),
      map_id_of (fun r => pushSubRelay_nil ns r),
      map_id_of (fun r => by
        rw [pushSubRelay_nil ns r, wakeRelay_nil t r] :
        ∀ r, wakeRelay [] t (pushSubRelay ns [] r) = r)] <;>
    first
    | exact hr
    | exact hw

/-- A two-relay manager for the C10 witness. -/
def mC10 : NostrManager :=
  NostrManager.make ["wss://a", "wss://b"] defaultParams 0

/-- Witness for C10 on a concrete two-relay manager. -/
theorem claim_C10_witness :
    mC10.subscribe (some []) 7 =
      Except.ok ({ mC10 with nextSubId := mC10.nextSubId + 1 },
        mC10.nextSubId, ([] : List String), [Effect.subscribeMany []]) ∧
    mC10.publish (some []) true (fun _ => Except.ok true) 7 =
      Except.ok (mC10, [Effect.poolPublish []]) ∧
    (mC10.authenticateToRelays (some []) (fun _ => true)).1 =
      mC10.relays.map (fun r => (r.url, true)) :=
  claim_C10 mC10 7 true (fun _ => Except.ok true) (fun _ => true) rfl rfl

/-- After addRelay the registry always holds a session for the URL. -/
theorem addRelay_has_url (m : NostrManager) (u : String) (t : Nat) :
    (m.addRelay u t).relays.any (fun r => decide (r.url = u)) = true := by
  unfold NostrManager.addRelay
  by_cases h : m.relays.any (fun r => decide (r.url = u)) = true
  · rw [if_pos h]; exact h
  · rw [if_neg h]; simp

/-- Adding a URL that already has a session is a no-op. -/
theorem addRelay_eq_of_has (m : NostrManager) (u : String) (t : Nat)
    (h : m.relays.any (fun r => decide (r.url = u)) = true) :
    m.addRelay u t = m := by
  unfold NostrManager.addRelay
  rw [if_pos h]

/-- C3: a GC sweep maps gcRelay over every session, and gcRelay puts to
sleep (with a disconnect) exactly the awake, subscription-free sessions
idle strictly longer than keepAliveTime: such a session is marked
sleeping and a disconnect for it is emitted, a session with at least one
active subscription is untouched, an already-sleeping session is
untouched, and a subscription-free awake session idle no longer than
keepAliveTime is untouched. -/
theorem claim_C3 (m : NostrManager) (now : Nat) (r : NostrRelay)
    (hr : r ∈ m.relays) :
    ((m.gcSweep now).1.relays =
        m.relays.map (gcRelay m.params.keepAliveTime now)) ∧
    (r.sleeping = false → r.activeSubs = [] →
        now - r.lastActive > m.params.keepAliveTime →
      gcRelay m.params.keepAliveTime now r = { r with sleeping := true } ∧
      Effect.disconnect r.url ∈ (m.gcSweep now).2.1) ∧
    (r.activeSubs ≠ [] → gcRelay m.params.keepAliveTime now r = r) ∧
    (r.sleeping = true → gcRelay m.params.keepAliveTime now r = r) ∧
    (r.sleeping = false → r.activeSubs = [] →
        now - r.lastActive ≤ m.params.keepAliveTime →
      gcRelay m.params.keepAliveTime now r = r) := by
  refine ⟨rfl, ?_, ?_, ?_, ?_⟩
  · intro h1 h2 h3
    constructor
    · simp [gcRelay, h1, h2, h3]
    · refine List.mem_map.mpr ⟨r, List.mem_filter.mpr ⟨hr, ?_⟩, rfl⟩
      simp [h1, h2, h3]
  · intro h
    simp [gcRelay, h]
  · intro h
    simp [gcRelay, h]
  · intro h1 h2 h3
    have h4 : ¬ (now - r.lastActive > m.params.keepAliveTime) :=
      not_lt.mpr h3
    simp [gcRelay, h1, h2, h4]

/-- A stale, awake, subscription-free session for the C3 witness. -/
def rC3 : NostrRelay :=
  { url := "wss://a", activeSubs := [], sleeping := false, lastActive := 0,
    authenticated := false }

/-- A manager holding only rC3. -/
def mC3 : NostrManager :=
  { params := defaultParams, relays := [rC3], authenticatedRelays := [],
    nextSubId := 0 }

/-- Witness for C3: the stale session is put to sleep and disconnected by
a sweep well past its keep-alive window. -/
theorem claim_C3_witness :
    gcRelay 300000 1000000 rC3 = { rC3 with sleeping := true } ∧
    Effect.disconnect "wss://a" ∈ (mC3.gcSweep 1000000).2.1 :=
  (claim_C3 mC3 1000000 rC3 (List.mem_singleton.mpr rfl)).2.1 rfl rfl
    (by decide)

/-- C6: adding the same URL twice is the same as adding it once — the
second call is a no-op, not an error — the registry then holds exactly
one session for the URL, and when the URL was absent the first call
appends a session initialized sleeping, stamped with the call time,
unauthenticated and with no active subscriptions. -/
theorem claim_C6 (m : NostrManager) (u : String) (t₁ t₂ : Nat)
    (hcount : m.relays.countP (fun r => decide (r.url = u)) ≤ 1) :
    ((m.addRelay u t₁).addRelay u t₂ = m.addRelay u t₁) ∧
    (((m.addRelay u t₁).addRelay u t₂).relays.countP
        (fun r => decide (r.url = u)) = 1) ∧
    ((∀ r ∈ m.relays, r.url ≠ u) →
      (m.addRelay u t₁).relays = m.relays ++
        [{ url := u, activeSubs := [], sleeping := true, lastActive := t₁,
           authenticated := false }]) := by
  have hidem : (m.addRelay u t₁).addRelay u t₂ = m.addRelay u t₁ :=
    addRelay_eq_of_has _ u t₂ (addRelay_has_url m u t₁)
  refine ⟨hidem, ?_, ?_⟩
  · rw [hidem]
    unfold NostrManager.addRelay
    by_cases h : m.relays.any (fun r => decide (r.url = u)) = true
    · rw [if_pos h]
      obtain ⟨r, hrm, hru⟩ := List.any_eq_true.mp h
      have h1 : 0 < m.relays.countP (fun r => decide (r.url = u)) :=
        List.countP_pos_iff.mpr ⟨r, hrm, hru⟩
      omega
    · rw [if_neg h]
      have h0 : m.relays.countP (fun r => decide (r.url = u)) = 0 := by
        refine List.countP_eq_zero.mpr ?_
        intro a ha
        by_contra hc
        exact h (List.any_eq_true.mpr ⟨a, ha, by simpa using hc⟩)
      simp [List.countP_append, h0]
  · intro habs
    unfold NostrManager.addRelay
    rw [if_neg]
    simp only [List.any_eq_true, not_exists]
    intro a
    rw [not_and]
    intro ha
    simp [habs a ha]

/-- An empty-registry manager for the C6 witness. -/
def mC6 : NostrManager := NostrManager.make [] defaultParams 0

/-- Witness for C6: after two adds of the same URL the registry holds
exactly one session for it. -/
theorem claim_C6_witness :
    ((mC6.addRelay "wss://a" 3).addRelay "wss://a" 9).relays.countP
        (fun r => decide (r.url = "wss://a")) = 1 :=
  (claim_C6 mC6 "wss://a" 3 9 (by decide)).2.1

/-- Looking up a key just appended to a record without it yields the
appended value. -/
theorem mapGet_append_single (xs : List (String × Bool)) (k : String)
    (v : Bool) (h : ∀ p ∈ xs, p.1 ≠ k) :
    mapGet (xs ++ [(k, v)]) k = some v := by
  induction xs with
  | nil =>
    unfold mapGet
    rw [List.nil_append, List.find?_cons_of_pos _ (by simp)]
    rfl
  | cons a l ih =>
    have ha : a.1 ≠ k := h a (List.mem_cons_self a l)
    have hl : ∀ p ∈ l, p.1 ≠ k := fun p hp => h p (List.mem_cons_of_mem a hp)
    unfold mapGet
    rw [List.cons_append, List.find?_cons_of_neg _ (by simpa using ha)]
    exact ih hl

/-- Overwriting the first-found matching entry makes the lookup yield the
new value, provided a matching entry exists. -/
theorem mapGet_map_overwrite (xs : List (String × Bool)) (k : String)
    (v : Bool) (h : xs.any (fun p => decide (p.1 = k)) = true) :
    mapGet (xs.map (fun p => if p.1 = k then (k, v) else p)) k = some v := by
  induction xs with
  | nil => simp at h
  | cons a l ih =>
    rw [List.map_cons]
    by_cases ha : a.1 = k
    · rw [if_pos ha]
      unfold mapGet
      rw [List.find?_cons_of_pos _ (by simp)]
      rfl
    · have h' : l.any (fun p => decide (p.1 = k)) = true := by
        rcases List.any_eq_true.mp h with ⟨p, hp, hpk⟩
        rcases List.mem_cons.mp hp with hh | hh
        · exact absurd (by simpa [hh] using hpk) ha
        · exact List.any_eq_true.mpr ⟨p, hh, hpk⟩
      rw [if_neg ha]
      unfold mapGet
      rw [List.find?_cons_of_neg _ (by simpa using ha)]
      exact ih h'

/-- Looking up a key right after setting it yields the stored value. -/
theorem mapGet_mapSet_self (xs : List (String × Bool)) (k : String)
    (v : Bool) : mapGet (mapSet xs k v) k = some v := by
  unfold mapSet
  by_cases h : xs.any (fun p => decide (p.1 = k)) = true
  · rw [if_pos h]
    exact mapGet_map_overwrite xs k v h
  · rw [if_neg h]
    refine mapGet_append_single xs k v ?_
    intro p hp hc
    exact h (List.any_eq_true.mpr ⟨p, hp, by simpa using hc⟩)

/-- C8: the manager's authenticateToRelay is a total function of the
handshake outcome — a thrown handshake (the error case) degrades to a
false return, a completed handshake returns its boolean and stores it
both in the authentication record and in the matching session's
authenticated flag (the session is guaranteed to exist), and
isRelayAuthenticated is a pure lookup on the record that returns false
for every URL with no recorded true outcome. -/
theorem claim_C8 (m : NostrManager) (url u : String) (t : Nat) (b : Bool) :
    ((m.authenticateToRelay url t (Except.error ())).1 = false) ∧
    ((m.authenticateToRelay url t (Except.ok b)).1 = b) ∧
    (mapGet (m.authenticateToRelay url t (Except.ok b)).2.authenticatedRelays
        url = some b) ∧
    (∃ r ∈ (m.authenticateToRelay url t (Except.ok b)).2.relays,
        r.url = url ∧ r.authenticated = b) ∧
    (∀ r ∈ (m.authenticateToRelay url t (Except.ok b)).2.relays,
        r.url = url → r.authenticated = b) ∧
    (mapGet m.authenticatedRelays u ≠ some true →
        m.isRelayAuthenticated u = false) := by
  have hm1 : ((if m.relays.any (fun r => decide (r.url = url)) = true then m
      else m.addRelay url t).relays.any (fun r => decide (r.url = url)))
      = true := by
    by_cases h : m.relays.any (fun r => decide (r.url = url)) = true
    · rw [if_pos h]; exact h
    · rw [if_neg h]; exact addRelay_has_url m url t
  refine ⟨rfl, rfl, ?_, ?_, ?_, ?_⟩
  · exact mapGet_mapSet_self _ url b
  · obtain ⟨r, hr, hru⟩ := List.any_eq_true.mp hm1
    refine ⟨setAuthRelay url b r, List.mem_map.mpr ⟨r, hr, rfl⟩, ?_, ?_⟩ <;>
      simp [setAuthRelay, show r.url = url by simpa using hru]
  · intro r' hr' hu'
    obtain ⟨r, hr, hmap⟩ := List.mem_map.mp hr'
    by_cases hru : r.url = url
    · rw [← hmap]; simp [setAuthRelay, hru]
    · rw [← hmap] at hu'
      simp [setAuthRelay, hru] at hu'
  · intro h
    simp [NostrManager.isRelayAuthenticated, h]

/-- A one-relay manager for the C8 witness. -/
def mC8 : NostrManager := NostrManager.make ["wss://a"] defaultParams 0

/-- Witness for C8: a URL with no recorded true outcome reads back as
unauthenticated. -/
theorem claim_C8_witness : mC8.isRelayAuthenticated "wss://x" = false :=
  (claim_C8 mC8 "wss://a" "wss://x" 0 true).2.2.2.2.2 (by decide)

/-! Preservation lemmas for the per-relay update functions. -/

/-- Pushing a handle never changes a session's URL. -/
theorem pushSubRelay_url (sid : Nat) (ts : List String) (r : NostrRelay) :
    (pushSubRelay sid ts r).url = r.url := by
  unfold pushSubRelay; split <;> rfl

/-- Waking never changes a session's URL. -/
theorem wakeRelay_url (ts : List String) (t : Nat) (r : NostrRelay) :
    (wakeRelay ts t r).url = r.url := by
  unfold wakeRelay; split <;> rfl

/-- Waking never changes a session's active subscriptions. -/
theorem wakeRelay_activeSubs (ts : List String) (t : Nat) (r : NostrRelay) :
    (wakeRelay ts t r).activeSubs = r.activeSubs := by
  unfold wakeRelay; split <;> rfl

/-- Waking never changes a session's authenticated flag. -/
theorem wakeRelay_authenticated (ts : List String) (t : Nat)
    (r : NostrRelay) : (wakeRelay ts t r).authenticated = r.authenticated := by
  unfold wakeRelay; split <;> rfl

/-- Setting the authenticated flag never changes a session's URL. -/
theorem setAuthRelay_url (u : String) (b : Bool) (r : NostrRelay) :
    (setAuthRelay u b r).url = r.url := by
  unfold setAuthRelay; split <;> rfl

/-- The close step on the active-subscription list, as one expression. -/
theorem closeSubRelay_activeSubs (sid : Nat) (ts : List String)
    (r : NostrRelay) :
    (closeSubRelay sid ts r).activeSubs =
      if r.url ∈ ts then r.activeSubs.erase sid else r.activeSubs := by
  unfold closeSubRelay; split <;> simp_all

/-- Pushing onto a targeted session appends the handle id. -/
theorem pushSubRelay_activeSubs_pos (sid : Nat) (ts : List String)
    (r : NostrRelay) (h : r.url ∈ ts) :
    (pushSubRelay sid ts r).activeSubs = r.activeSubs ++ [sid] := by
  unfold pushSubRelay; rw [if_pos h]

/-- Pushing is a no-op on an untargeted session. -/
theorem pushSubRelay_of_not_mem (sid : Nat) (ts : List String)
    (r : NostrRelay) (h : r.url ∉ ts) : pushSubRelay sid ts r = r := by
  unfold pushSubRelay; rw [if_neg h]

/-- Closing a handle absent from a session's active set is a no-op. -/
theorem closeSubRelay_of_not_mem (sid : Nat) (ts : List String)
    (r : NostrRelay) (h : sid ∉ r.activeSubs) : closeSubRelay sid ts r = r := by
  unfold closeSubRelay
  split
  · rw [List.erase_of_not_mem h]
  · rfl

/-- Mapping a function that is the identity on a list's members changes
nothing. -/
theorem map_id_of_mem {α : Type} {f : α → α} :
    ∀ {l : List α}, (∀ a ∈ l, f a = a) → l.map f = l
  | [], _ => rfl
  | a :: l, h => by
    rw [List.map_cons, h a (List.mem_cons_self a l),
      map_id_of_mem (fun x hx => h x (List.mem_cons_of_mem a hx))]

/-- Closing a handle on a manager none of whose sessions hold it changes
nothing. -/
theorem closeSub_idem (X : NostrManager) (sid : Nat) (ts : List String)
    (h : ∀ r ∈ X.relays, sid ∉ r.activeSubs) : X.closeSub sid ts = X := by
  unfold NostrManager.closeSub
  rw [map_id_of_mem (fun r hr => closeSubRelay_of_not_mem sid ts r (h r hr))]

/-- Pushing a handle, keeping the session alive, then closing the handle
restores a session's active-subscription list, provided the handle was
fresh. -/
theorem closeSub_roundtrip (sid : Nat) (ts : List String) (t : Nat)
    (r : NostrRelay) (h : sid ∉ r.activeSubs) :
    (closeSubRelay sid ts (wakeRelay ts t (pushSubRelay sid ts r))).activeSubs
      = r.activeSubs := by
  have hx : (wakeRelay ts t (pushSubRelay sid ts r)).url = r.url := by
    rw [wakeRelay_url, pushSubRelay_url]
  have hsubs : (wakeRelay ts t (pushSubRelay sid ts r)).activeSubs
      = (pushSubRelay sid ts r).activeSubs := wakeRelay_activeSubs ts t _
  by_cases hmem : r.url ∈ ts
  · rw [closeSubRelay_activeSubs, hx, if_pos hmem, hsubs,
      pushSubRelay_activeSubs_pos sid ts r hmem,
      List.erase_append_right _ h, List.erase_cons_head, List.append_nil]
  · rw [closeSubRelay_activeSubs, hx, if_neg hmem, hsubs,
      pushSubRelay_of_not_mem sid ts r hmem]

/-! Properties of addRelay / addRelays used to propagate handle
freshness. -/

/-- addRelay does not change the handle counter. -/
theorem addRelay_nextSubId (m : NostrManager) (u : String) (t : Nat) :
    (m.addRelay u t).nextSubId = m.nextSubId := by
  unfold NostrManager.addRelay; split <;> rfl

/-- addRelays does not change the handle counter. -/
theorem addRelays_nextSubId (us : List String) :
    ∀ (m : NostrManager) (t : Nat), (m.addRelays us t).nextSubId
      = m.nextSubId := by
  induction us with
  | nil => intro m t; rfl
  | cons u us ih =>
    intro m t
    show ((m.addRelay u t).addRelays us t).nextSubId = m.nextSubId
    rw [ih, addRelay_nextSubId]

/-- Every session after addRelay is an old session or has an empty
active set. -/
theorem addRelay_mem (m : NostrManager) (u : String) (t : Nat) :
    ∀ r ∈ (m.addRelay u t).relays, r ∈ m.relays ∨ r.activeSubs = [] := by
  unfold NostrManager.addRelay
  split
  · intro r hr; exact Or.inl hr
  · intro r hr
    rcases List.mem_append.mp hr with h | h
    · exact Or.inl h
    · right
      rw [List.mem_singleton.mp h]

/-- Every session after addRelays is an old session or has an empty
active set. -/
theorem addRelays_mem (us : List String) :
    ∀ (m : NostrManager) (t : Nat), ∀ r ∈ (m.addRelays us t).relays,
      r ∈ m.relays ∨ r.activeSubs = [] := by
  induction us with
  | nil => intro m t r hr; exact Or.inl hr
  | cons u us ih =>
    intro m t r hr
    rcases ih (m.addRelay u t) t r hr with h | h
    · rcases addRelay_mem m u t r h with h' | h'
      · exact Or.inl h'
      · exact Or.inr h'
    · exact Or.inr h

/-- ensureRelays does not change the handle counter. -/
theorem ensureRelays_nextSubId (m : NostrManager)
    (urls : Option (List String)) (t : Nat) :
    (m.ensureRelays urls t).nextSubId = m.nextSubId := by
  cases urls with
  | none => rfl
  | some us => exact addRelays_nextSubId us m t

/-- Every session after ensureRelays is an old session or has an empty
active set. -/
theorem ensureRelays_mem (m : NostrManager) (urls : Option (List String))
    (t : Nat) : ∀ r ∈ (m.ensureRelays urls t).relays,
      r ∈ m.relays ∨ r.activeSubs = [] := by
  cases urls with
  | none => intro r hr; exact Or.inl hr
  | some us => exact addRelays_mem us m t

/-! The components of a successful subscribe call, named so that the
call's result can be stated as one equation. -/

/-- The registry state after the session-ensuring prelude of subscribe. -/
def subM1 (m : NostrManager) (urls : Option (List String)) (t : Nat) :
    NostrManager := m.ensureRelays urls t

/-- The URLs a subscribe call targets. -/
def subTargets (m : NostrManager) (urls : Option (List String)) (t : Nat) :
    List String := (subM1 m urls t).targetsOf urls

/-- The handle id a subscribe call allocates. -/
def subSid (m : NostrManager) (urls : Option (List String)) (t : Nat) :
    Nat := (subM1 m urls t).nextSubId

/-- The state after registering the handle on every targeted session. -/
def subM2 (m : NostrManager) (urls : Option (List String)) (t : Nat) :
    NostrManager :=
  { subM1 m urls t with
    relays := (subM1 m urls t).relays.map
      (pushSubRelay (subSid m urls t) (subTargets m urls t)),
    nextSubId := (subM1 m urls t).nextSubId + 1 }

/-- The state a successful subscribe call returns. -/
def subPost (m : NostrManager) (urls : Option (List String)) (t : Nat) :
    NostrManager :=
  ((subM2 m urls t).keepAlive (subTargets m urls t) t).1

/-- The effect trace of a successful subscribe call. -/
def subEff (m : NostrManager) (urls : Option (List String)) (t : Nat) :
    List Effect :=
  Effect.subscribeMany (subTargets m urls t) ::
    ((subM2 m urls t).keepAlive (subTargets m urls t) t).2

/-- On a readable manager, subscribe returns exactly the named
components. -/
theorem subscribe_eq (m : NostrManager) (urls : Option (List String))
    (t : Nat) (hre : m.params.readable = true) :
    m.subscribe urls t = Except.ok
      (subPost m urls t, subSid m urls t, subTargets m urls t,
        subEff m urls t) := by
  unfold NostrManager.subscribe
  rw [hre]
  rfl

/-- C7: after subscribe, closing the returned handle removes its id from
every session's active set, and a second close of the same handle is a
no-op — the handle is already gone from every set, so the second pass
changes nothing. Freshness of the allocated id (no session already holds
the counter value) is the registry invariant maintained by the manager,
here a hypothesis. -/
theorem claim_C7 (m : NostrManager) (urls : Option (List String)) (t : Nat)
    (hre : m.params.readable = true)
    (hfresh : ∀ r ∈ m.relays, m.nextSubId ∉ r.activeSubs) :
    ∀ m' sid targets eff,
      m.subscribe urls t = Except.ok (m', sid, targets, eff) →
      (∀ r ∈ (m'.closeSub sid targets).relays, sid ∉ r.activeSubs) ∧
      (m'.closeSub sid targets).closeSub sid targets
        = m'.closeSub sid targets := by
  intro m' sid targets eff h
  rw [subscribe_eq m urls t hre, Except.ok.injEq] at h
  simp only [Prod.mk.injEq] at h
  obtain ⟨h1, h2, h3, h4⟩ := h
  subst h1; subst h2; subst h3; subst h4
  have hfresh1 : ∀ r ∈ (subM1 m urls t).relays,
      subSid m urls t ∉ r.activeSubs := by
    intro r hr
    rcases ensureRelays_mem m urls t r hr with hmem | hnil
    · show (subM1 m urls t).nextSubId ∉ r.activeSubs
      rw [show (subM1 m urls t).nextSubId = m.nextSubId from
        ensureRelays_nextSubId m urls t]
      exact hfresh r hmem
    · rw [hnil]
      exact List.not_mem_nil _
  have hrel : ((subPost m urls t).closeSub (subSid m urls t)
      (subTargets m urls t)).relays =
      (((subM1 m urls t).relays.map
          (pushSubRelay (subSid m urls t) (subTargets m urls t))).map
        (wakeRelay (subTargets m urls t) t)).map
        (closeSubRelay (subSid m urls t) (subTargets m urls t)) := rfl
  have key : ∀ r ∈ ((subPost m urls t).closeSub (subSid m urls t)
      (subTargets m urls t)).relays, subSid m urls t ∉ r.activeSubs := by
    intro r' hr'
    rw [hrel] at hr'
    rcases List.mem_map.mp hr' with ⟨r2, hr2, hr2e⟩
    rcases List.mem_map.mp hr2 with ⟨r1, hr1, hr1e⟩
    rcases List.mem_map.mp hr1 with ⟨r0, hr0, hr0e⟩
    have hf0 := hfresh1 r0 hr0
    rw [← hr2e, ← hr1e, ← hr0e,
      closeSub_roundtrip (subSid m urls t) (subTargets m urls t) t r0 hf0]
    exact hf0
  exact ⟨key, closeSub_idem _ _ _ key⟩

/-- A one-relay manager for the C7 witness. -/
def mC7 : NostrManager := NostrManager.make ["wss://a"] defaultParams 0

/-- The one session of mC7 as subscribe leaves it. -/
def rC7post : NostrRelay :=
  { url := "wss://a", activeSubs := [0], sleeping := false,
    lastActive := 5, authenticated := false }

/-- The state mC7's subscribe call returns. -/
def mC7post : NostrManager :=
  { params := defaultParams, relays := [rC7post],
    authenticatedRelays := [], nextSubId := 1 }

/-- Witness for C7 on a concrete subscribe-then-close run. -/
theorem claim_C7_witness :
    (∀ r ∈ (mC7post.closeSub 0 ["wss://a"]).relays,
        (0 : Nat) ∉ r.activeSubs) ∧
    (mC7post.closeSub 0 ["wss://a"]).closeSub 0 ["wss://a"]
      = mC7post.closeSub 0 ["wss://a"] :=
  claim_C7 mC7 none 5 rfl (by decide) mC7post 0 ["wss://a"]
    [Effect.subscribeMany ["wss://a"], Effect.connect "wss://a"] rfl

/-! Machinery for the auto-authentication loop of publish. -/

/-- Whether the auto-auth loop would run the handshake for a URL at a
given registry state: a session for the URL is found and its
authenticated flag is unset (the loop's test at source line 264). -/
def pendingAuth (l : List NostrRelay) (u : String) : Bool :=
  match l.find? (fun r => decide (r.url = u)) with
  | some r => !r.authenticated
  | none => false

/-- Searching by URL commutes with mapping a URL-preserving function. -/
theorem find?_url_map (f : NostrRelay → NostrRelay)
    (hurl : ∀ r, (f r).url = r.url) (l : List NostrRelay) (v : String) :
    (l.map f).find? (fun r => decide (r.url = v))
      = (l.find? (fun r => decide (r.url = v))).map f := by
  induction l with
  | nil => rfl
  | cons a l ih =>
    rw [List.map_cons]
    by_cases hav : a.url = v
    · rw [List.find?_cons_of_pos _ (by simpa [hurl a] using hav),
        List.find?_cons_of_pos _ (by simpa using hav)]
      rfl
    · rw [List.find?_cons_of_neg _ (by simpa [hurl a] using hav),
        List.find?_cons_of_neg _ (by simpa using hav)]
      exact ih

/-- pendingAuth is unchanged by mapping a function preserving URLs and
authenticated flags. -/
theorem pendingAuth_map (f : NostrRelay → NostrRelay)
    (hurl : ∀ r, (f r).url = r.url)
    (hauth : ∀ r, (f r).authenticated = r.authenticated)
    (l : List NostrRelay) (v : String) :
    pendingAuth (l.map f) v = pendingAuth l v := by
  unfold pendingAuth
  rw [find?_url_map f hurl]
  cases l.find? (fun r => decide (r.url = v)) with
  | none => rfl
  | some r => simp [hauth r]

/-- pendingAuth for a URL is unchanged by appending a session with a
different URL. -/
theorem pendingAuth_append_other (l : List NostrRelay) (x : NostrRelay)
    (v : String) (hne : x.url ≠ v) :
    pendingAuth (l ++ [x]) v = pendingAuth l v := by
  unfold pendingAuth
  rw [List.find?_append]
  have hx : List.find? (fun r => decide (r.url = v)) [x] = none := by
    rw [List.find?_cons_of_neg _ (by simpa using hne)]
    rfl
  rw [hx]
  cases l.find? (fun r => decide (r.url = v)) <;> rfl

/-- pendingAuth for a URL is unchanged by setting another URL's
authenticated flag. -/
theorem pendingAuth_setAuth_other (l : List NostrRelay) (u v : String)
    (b : Bool) (hne : v ≠ u) :
    pendingAuth (l.map (setAuthRelay u b)) v = pendingAuth l v := by
  unfold pendingAuth
  rw [find?_url_map (setAuthRelay u b) (setAuthRelay_url u b) l v]
  cases hf : l.find? (fun r => decide (r.url = v)) with
  | none => rfl
  | some r =>
    have hrv : r.url = v := by simpa using List.find?_some hf
    simp [setAuthRelay, hrv, hne]

/-- pendingAuth for any other URL survives an authenticateToRelay call. -/
theorem pendingAuth_auth_other (mc : NostrManager) (u : String) (t : Nat)
    (o : Except Unit Bool) (v : String) (hne : v ≠ u) :
    pendingAuth ((mc.authenticateToRelay u t o).2).relays v
      = pendingAuth mc.relays v := by
  unfold NostrManager.authenticateToRelay
  have hm1 : pendingAuth (if (mc.relays.any fun r => decide (r.url = u))
        = true then mc else mc.addRelay u t).relays v
      = pendingAuth mc.relays v := by
    by_cases hany : (mc.relays.any fun r => decide (r.url = u)) = true
    · rw [if_pos hany]
    · rw [if_neg hany]
      unfold NostrManager.addRelay
      rw [if_neg hany]
      exact pendingAuth_append_other _ _ v (fun hc => hne hc.symm)
  cases o with
  | error e => exact hm1
  | ok b =>
    show pendingAuth (List.map (setAuthRelay u b) _) v = _
    rw [pendingAuth_setAuth_other _ u v b hne]
    exact hm1

/-- pendingAuth is true exactly when the registry holds an
unauthenticated session for the URL, given URL-unique sessions. -/
theorem pendingAuth_true_iff (l : List NostrRelay) (u : String)
    (hpw : l.Pairwise (fun a b => a.url ≠ b.url)) :
    pendingAuth l u = true
      ↔ ∃ r ∈ l, r.url = u ∧ r.authenticated = false := by
  induction l with
  | nil => simp [pendingAuth]
  | cons a l ih =>
    obtain ⟨hhead, htail⟩ := List.pairwise_cons.mp hpw
    by_cases hau : a.url = u
    · unfold pendingAuth
      rw [List.find?_cons_of_pos _ (by simpa using hau)]
      constructor
      · intro hb
        exact ⟨a, List.mem_cons_self a l, hau, by simpa using hb⟩
      · rintro ⟨r, hr, hru, hrb⟩
        rcases List.mem_cons.mp hr with hra | hrl
        · show (!a.authenticated) = true
          rw [← hra, hrb]
          rfl
        · exact absurd (hau.trans hru.symm) (hhead r hrl)
    · unfold pendingAuth
      rw [List.find?_cons_of_neg _ (by simpa using hau)]
      show pendingAuth l u = true ↔ _
      constructor
      · intro hb
        obtain ⟨r, hr, h1, h2⟩ := (ih htail).mp hb
        exact ⟨r, List.mem_cons_of_mem a hr, h1, h2⟩
      · rintro ⟨r, hr, hru, hrb⟩
        rcases List.mem_cons.mp hr with hra | hrl
        · exact absurd (hra ▸ hru) hau
        · exact (ih htail).mpr ⟨r, hrl, hru, hrb⟩

/-- addRelay preserves URL-uniqueness of the registry. -/
theorem addRelay_pairwise (m : NostrManager) (u : String) (t : Nat)
    (h : m.relays.Pairwise (fun a b => a.url ≠ b.url)) :
    (m.addRelay u t).relays.Pairwise (fun a b => a.url ≠ b.url) := by
  unfold NostrManager.addRelay
  split
  · exact h
  · rename_i hany
    rw [List.pairwise_append]
    refine ⟨h, List.pairwise_singleton _ _, ?_⟩
    intro a ha b hb
    rw [List.mem_singleton.mp hb]
    intro hc
    exact hany (List.any_eq_true.mpr ⟨a, ha, by simpa using hc⟩)

/-- addRelays preserves URL-uniqueness of the registry. -/
theorem addRelays_pairwise (us : List String) :
    ∀ (m : NostrManager) (t : Nat),
      m.relays.Pairwise (fun a b => a.url ≠ b.url) →
      (m.addRelays us t).relays.Pairwise (fun a b => a.url ≠ b.url) := by
  induction us with
  | nil => intro m t h; exact h
  | cons u us ih =>
    intro m t h
    exact ih (m.addRelay u t) t (addRelay_pairwise m u t h)

/-- ensureRelays preserves URL-uniqueness of the registry. -/
theorem ensureRelays_pairwise (m : NostrManager)
    (urls : Option (List String)) (t : Nat)
    (h : m.relays.Pairwise (fun a b => a.url ≠ b.url)) :
    (m.ensureRelays urls t).relays.Pairwise (fun a b => a.url ≠ b.url) := by
  cases urls with
  | none => exact h
  | some us => exact addRelays_pairwise us m t h

/-- With URL-unique sessions the targeted URL list has no duplicates. -/
theorem targetsOf_nodup (m : NostrManager) (urls : Option (List String))
    (hpw : m.relays.Pairwise (fun a b => a.url ≠ b.url)) :
    (m.targetsOf urls).Nodup := by
  cases urls with
  | none => exact List.pairwise_map.mpr hpw
  | some us =>
    exact List.pairwise_map.mpr
      (hpw.sublist (List.filter_sublist m.relays))

/-! The components of a successful publish call. -/

/-- The registry state after the session-ensuring prelude of publish. -/
def pubM1 (m : NostrManager) (urls : Option (List String)) (t : Nat) :
    NostrManager := m.ensureRelays urls t

/-- The URLs a publish call targets. -/
def pubTs (m : NostrManager) (urls : Option (List String)) (t : Nat) :
    List String := (pubM1 m urls t).targetsOf urls

/-- The keep-alive stage of publish. -/
def pubKA (m : NostrManager) (urls : Option (List String)) (t : Nat) :
    NostrManager × List Effect :=
  (pubM1 m urls t).keepAlive (pubTs m urls t) t

/-- The auto-authentication stage of publish when it runs. -/
def pubAuth (m : NostrManager) (urls : Option (List String))
    (hs : String → Except Unit Bool) (t : Nat) :
    NostrManager × List Effect :=
  (pubTs m urls t).foldl (publishAuthStep hs t)
    ((pubKA m urls t).1, ([] : List Effect))

/-- On a writable manager with autoAuth on and a signer supplied, publish
returns exactly the named components. -/
theorem publish_eq (m : NostrManager) (urls : Option (List String))
    (hs : String → Except Unit Bool) (t : Nat)
    (hw : m.params.writable = true) (ha : m.params.autoAuth = true) :
    m.publish urls true hs t = Except.ok ((pubAuth m urls hs t).1,
      (pubKA m urls t).2 ++ (pubAuth m urls hs t).2
        ++ [Effect.poolPublish (pubTs m urls t)]) := by
  unfold NostrManager.publish
  rw [hw, ha]
  rfl

/-- The effect trace of the auto-authentication loop is one handshake per
targeted URL whose session is pending authentication at loop entry,
given duplicate-free targets. -/
theorem publishAuth_effects (hs : String → Except Unit Bool) (t : Nat) :
    ∀ (ts : List String) (mc : NostrManager) (es : List Effect),
      ts.Nodup →
      (ts.foldl (publishAuthStep hs t) (mc, es)).2
        = es ++ (ts.filter (fun u => pendingAuth mc.relays u)).map
            Effect.handshake := by
  intro ts
  induction ts with
  | nil =>
    intro mc es _
    simp
  | cons u rest ih =>
    intro mc es hnd
    obtain ⟨hu, hnd'⟩ := List.nodup_cons.mp hnd
    rw [List.foldl_cons]
    cases hfind : mc.relays.find? (fun r => decide (r.url = u)) with
    | none =>
      have hstep : publishAuthStep hs t (mc, es) u = (mc, es) := by
        show (match mc.relays.find? (fun r => decide (r.url = u)) with
          | some r =>
            if !r.authenticated then
              ((mc.authenticateToRelay u t (hs u)).2,
                es ++ [Effect.handshake u])
            else (mc, es)
          | none => (mc, es)) = (mc, es)
        rw [hfind]
      have hpf : pendingAuth mc.relays u = false := by
        unfold pendingAuth
        rw [hfind]
      rw [hstep, ih mc es hnd', List.filter_cons_of_neg (by simp [hpf])]
    | some r =>
      cases hauth : r.authenticated with
      | true =>
        have hstep : publishAuthStep hs t (mc, es) u = (mc, es) := by
          show (match mc.relays.find? (fun r => decide (r.url = u)) with
            | some r =>
              if !r.authenticated then
                ((mc.authenticateToRelay u t (hs u)).2,
                  es ++ [Effect.handshake u])
              else (mc, es)
            | none => (mc, es)) = (mc, es)
          rw [hfind]
          simp [hauth]
        have hpf : pendingAuth mc.relays u = false := by
          unfold pendingAuth
          rw [hfind]
          simp [hauth]
        rw [hstep, ih mc es hnd', List.filter_cons_of_neg (by simp [hpf])]
      | false =>
        have hstep : publishAuthStep hs t (mc, es) u
            = ((mc.authenticateToRelay u t (hs u)).2,
                es ++ [Effect.handshake u]) := by
          show (match mc.relays.find? (fun r => decide (r.url = u)) with
            | some r =>
              if !r.authenticated then
                ((mc.authenticateToRelay u t (hs u)).2,
                  es ++ [Effect.handshake u])
              else (mc, es)
            | none => (mc, es)) = _
          rw [hfind]
          simp [hauth]
        have hpt : pendingAuth mc.relays u = true := by
          unfold pendingAuth
          rw [hfind]
          simp [hauth]
        rw [hstep, ih _ _ hnd']
        have hfc : rest.filter (fun v =>
            pendingAuth ((mc.authenticateToRelay u t (hs u)).2).relays v)
            = rest.filter (fun v => pendingAuth mc.relays v) :=
          List.filter_congr (fun v hv =>
            pendingAuth_auth_other mc u t (hs u) v
              (fun he => hu (he ▸ hv)))
        rw [hfc, List.filter_cons_of_pos (by simp [hpt]), List.map_cons]
        simp

/-- C9: on a writable manager with autoAuth on and a signer supplied, a
publish call runs the handshake for exactly the targeted sessions whose
authenticated flag is unset at loop entry — an already-authenticated
session is skipped — and broadcasts to every targeted session no matter
what the handshake outcomes are (the handshake oracle hs is arbitrary,
covering failures and thrown errors). URL-uniqueness of the registry is
the invariant maintained by addRelay, here a hypothesis. -/
theorem claim_C9 (m : NostrManager) (urls : Option (List String))
    (hs : String → Except Unit Bool) (t : Nat)
    (hw : m.params.writable = true) (ha : m.params.autoAuth = true)
    (hpw : m.relays.Pairwise (fun a b => a.url ≠ b.url)) :
    ∀ m' eff, m.publish urls true hs t = Except.ok (m', eff) →
      (Effect.poolPublish ((m.ensureRelays urls t).targetsOf urls) ∈ eff) ∧
      (∀ u, Effect.handshake u ∈ eff ↔
        ∃ r ∈ (m.ensureRelays urls t).relays, r.url = u ∧
          u ∈ (m.ensureRelays urls t).targetsOf urls ∧
          r.authenticated = false) := by
  intro m' eff h
  rw [publish_eq m urls hs t hw ha, Except.ok.injEq] at h
  simp only [Prod.mk.injEq] at h
  obtain ⟨h1, h2⟩ := h
  subst h1
  subst h2
  have hm1pw : (pubM1 m urls t).relays.Pairwise
      (fun a b => a.url ≠ b.url) := ensureRelays_pairwise m urls t hpw
  have hts : (pubTs m urls t).Nodup := targetsOf_nodup _ urls hm1pw
  have heff2 : (pubAuth m urls hs t).2
      = ((pubTs m urls t).filter
          (fun v => pendingAuth (pubKA m urls t).1.relays v)).map
        Effect.handshake := by
    have h0 := publishAuth_effects hs t (pubTs m urls t)
      (pubKA m urls t).1 [] hts
    simpa using h0
  have hka : ∀ v, pendingAuth (pubKA m urls t).1.relays v
      = pendingAuth (pubM1 m urls t).relays v := by
    intro v
    show pendingAuth ((pubM1 m urls t).relays.map
      (wakeRelay (pubTs m urls t) t)) v = _
    exact pendingAuth_map (wakeRelay (pubTs m urls t) t)
      (wakeRelay_url (pubTs m urls t) t)
      (wakeRelay_authenticated (pubTs m urls t) t) _ v
  constructor
  · apply List.mem_append.mpr
    right
    exact List.mem_singleton.mpr rfl
  · intro u
    constructor
    · intro hmem
      rcases List.mem_append.mp hmem with hmem2 | hpool
      rcases List.mem_append.mp hmem2 with hk | hauth2
      · exfalso
        obtain ⟨r, _, habs⟩ := List.mem_map.mp hk
        exact Effect.noConfusion habs
      · rw [heff2] at hauth2
        obtain ⟨v, hv, hveq⟩ := List.mem_map.mp hauth2
        obtain rfl : v = u := by
          injection hveq
        obtain ⟨hvts, hvpend⟩ := List.mem_filter.mp hv
        rw [hka] at hvpend
        obtain ⟨r, hr, hru, hrb⟩ :=
          (pendingAuth_true_iff _ v hm1pw).mp (by simpa using hvpend)
        exact ⟨r, hr, hru, hvts, hrb⟩
      · exact absurd (List.mem_singleton.mp hpool)
          (fun habs => Effect.noConfusion habs)
    · rintro ⟨r, hr, hru, huts, hrb⟩
      apply List.mem_append.mpr
      left
      apply List.mem_append.mpr
      right
      rw [heff2]
      refine List.mem_map.mpr ⟨u, ?_, rfl⟩
      refine List.mem_filter.mpr ⟨huts, ?_⟩
      have hp : pendingAuth (pubM1 m urls t).relays u = true :=
        (pendingAuth_true_iff _ u hm1pw).mpr ⟨r, hr, hru, hrb⟩
      simp [hka u, hp]

/-- A configuration with autoAuth on for the C9 witness. -/
def paramsC9 : NostrManagerParams :=
  { connectionTimeout := none, keepAliveTime := 100, gcInterval := 100,
    readable := true, writable := true, autoAuth := true }

/-- An already-authenticated session. -/
def rC9a : NostrRelay :=
  { url := "wss://a", activeSubs := [], sleeping := true, lastActive := 0,
    authenticated := true }

/-- A not-yet-authenticated session. -/
def rC9b : NostrRelay :=
  { url := "wss://b", activeSubs := [], sleeping := true, lastActive := 0,
    authenticated := false }

/-- A two-session manager, one session authenticated and one not. -/
def mC9 : NostrManager :=
  { params := paramsC9, relays := [rC9a, rC9b], authenticatedRelays := [],
    nextSubId := 0 }

/-- A handshake oracle that always throws. -/
def hsC9 : String → Except Unit Bool := fun _ => Except.error ()

/-- The state the witness publish call returns. -/
def mC9post : NostrManager :=
  { params := paramsC9,
    relays :=
      [{ url := "wss://a", activeSubs := [], sleeping := false,
         lastActive := 7, authenticated := true },
       { url := "wss://b", activeSubs := [], sleeping := false,
         lastActive := 7, authenticated := false }],
    authenticatedRelays := [], nextSubId := 0 }

/-- The effect trace of the witness publish call. -/
def effC9 : List Effect :=
  [Effect.connect "wss://a", Effect.connect "wss://b",
   Effect.handshake "wss://b",
   Effect.poolPublish ["wss://a", "wss://b"]]

/-- Witness for C9 on a concrete publish: the broadcast covers both
sessions although every handshake throws, the unauthenticated session
gets a handshake, and the authenticated one is skipped. -/
theorem claim_C9_witness :
    Effect.poolPublish ["wss://a", "wss://b"] ∈ effC9 ∧
    Effect.handshake "wss://b" ∈ effC9 ∧
    Effect.handshake "wss://a" ∉ effC9 := by
  have H := claim_C9 mC9 none hsC9 7 rfl rfl (by decide) mC9post effC9 rfl
  refine ⟨H.1, (H.2 "wss://b").mpr ⟨rC9b, by decide, rfl, by decide, rfl⟩,
    fun hmem => absurd ((H.2 "wss://a").mp hmem) (by decide)⟩

end Shopstr
